import Mathlib

/-!
Shallow embedding of the IOSCHAT backend (`src/chat-server/server.ts`).

The server is an Express + Socket.IO process over MongoDB.  We embed its
persistent state (the `users` and `chats` collections) as Lean lists, its
REST handlers (`/register`, `/login`, `/chatlist`, the `verifyToken`
middleware) and its socket handlers (`send_message`, `create_chat`,
`register_socket`, `join_chat`) as pure state-passing functions.

Modelling conventions, each tied to the source:
* MongoDB `ObjectId`s are `Nat`; the store carries a `nextChatId` counter
  standing for fresh-id generation.
* `findOne` / `findById` return the first matching document
  (`List.find?`), and saving a fetched document writes back the first
  match (`updateUser` / `updateChat`).
* `bcrypt.hash` and `bcrypt.compare` are cryptographic primitives, not
  code of this repository; they enter the model as function parameters
  `bhash` / `bcompare`.
* `jwt.sign` / `jwt.verify` are modelled symbolically: a token is a
  payload plus a signature string, and a signature verifies exactly when
  it equals `jwtSig secret payload` (a deterministic MAC of the payload
  under the secret).  `jsonwebtoken` rejects a token whose `exp` claim is
  `≤` the current clock (seconds), and `expiresIn: '1h'` sets
  `exp = iat + 3600`.
* Each JavaScript `Date.now()` / `new Date()` call site is a separate
  clock-read parameter: the mongoose schema default stamps the message at
  push time (`tPush`), while the `receive_message` broadcast builds a
  fresh `new Date()` after the awaited save (`tEmit`).
* Socket.IO side effects are reified as an `Emit` list:
  `io.to(room).emit(...)` becomes a room-targeted event delivered to every
  connection subscribed to the room (the emitter included), while
  `socket.emit(...)` is delivered to the originating connection only.
  `deliveredTo` gives that delivery semantics over a connection's joined
  rooms.
-/

namespace ChatServer

/-- A message subdocument (`messageSchema`, server.ts:36-40): sender email,
text, and a timestamp defaulted to the clock at subdocument creation.
There is no image field in the schema. -/
structure Message where
  sender : String
  text : String
  timestamp : Nat
deriving DecidableEq, Repr

/-- A chat document (`chatSchema`, server.ts:42-45): an id, the
caller-supplied participant emails, and the embedded message list. -/
structure Chat where
  id : Nat
  participants : List String
  messages : List Message
deriving DecidableEq, Repr

/-- A user document (`userSchema`, server.ts:30-34): email, stored
(password-hash) string, and the list of chat ids the user is linked to. -/
structure User where
  email : String
  password : String
  chats : List Nat
deriving DecidableEq, Repr

/-- The MongoDB state: both collections plus a fresh-id counter standing
for ObjectId generation. -/
structure DB where
  users : List User
  chats : List Chat
  nextChatId : Nat
deriving DecidableEq, Repr

/-- `User.findOne({email})`: first user with the given email. -/
def findUser (db : DB) (email : String) : Option User :=
  db.users.find? (fun u => u.email == email)

/-- `Chat.findById(cid)`: first chat with the given id. -/
def findChatById (db : DB) (cid : Nat) : Option Chat :=
  db.chats.find? (fun c => c.id == cid)

/-- `user.save()` after mutating a document fetched with
`User.findOne({email})`: rewrite the first user with that email. -/
def updateUser (us : List User) (email : String) (f : User → User) : List User :=
  match us with
  | [] => []
  | u :: rest => if u.email == email then f u :: rest else u :: updateUser rest email f

/-- `chat.save()` after mutating a document fetched with
`Chat.findById(cid)`: rewrite the first chat with that id. -/
def updateChat (cs : List Chat) (cid : Nat) (f : Chat → Chat) : List Chat :=
  match cs with
  | [] => []
  | c :: rest => if c.id == cid then f c :: rest else c :: updateChat rest cid f

/-- The `create_chat` match query (server.ts:169-172):
`participants: {$all: ps}` (every requested email occurs in the stored
array; per MongoDB semantics, `$all` with an empty array matches no
documents at all) conjoined with `$expr: $size $participants ==
ps.length`. -/
def chatMatches (ps : List String) (c : Chat) : Bool :=
  !ps.isEmpty &&
    (ps.all (fun p => c.participants.contains p) && c.participants.length == ps.length)

/-- `Chat.findOne({$all, $size})`: first chat matching the participant
query. -/
def findChatByParticipants (db : DB) (ps : List String) : Option Chat :=
  db.chats.find? (chatMatches ps)

/-- The `lastMessage` field of a chat-list summary: the last embedded
message when `messages.length > 0`, else the placeholder object
`(text = empty, timestamp = null)` (server.ts:132-134). -/
inductive LastMsg where
  | real (m : Message)
  | placeholder
deriving DecidableEq, Repr

/-- `messages.length > 0 ? messages[messages.length - 1] : placeholder`. -/
def lastMessageOf (c : Chat) : LastMsg :=
  match c.messages.getLast? with
  | some m => LastMsg.real m
  | none => LastMsg.placeholder

/-- One entry of a chat-list payload (server.ts:129-135), and also the
`chat_created` acknowledgment payload (server.ts:204-210, where
`participants` is the full stored list, unfiltered). -/
structure ChatSummary where
  chatId : Nat
  participants : List String
  lastMessage : LastMsg
deriving DecidableEq, Repr

/-- The chat list computed for a user (server.ts:127-135 and 190-198):
the chats whose id is in `u.chats`, each projected to
`(chatId, participants minus the user's own email, lastMessage)`. -/
def chatListFor (db : DB) (u : User) : List ChatSummary :=
  (db.chats.filter (fun c => u.chats.contains c.id)).map (fun c =>
    { chatId := c.id
      participants := c.participants.filter (fun p => p != u.email)
      lastMessage := lastMessageOf c })

/-- An HTTP response as status code plus `message` body. -/
structure HttpResp where
  status : Nat
  message : String
deriving DecidableEq, Repr

/-- `POST /register` (server.ts:69-91).  `bhash` stands for
`bcrypt.hash`; the handler calls it with cost factor 10.  An empty string
models a missing/empty (falsy) body field. -/
def register (bhash : String → Nat → String) (db : DB) (email password : String) :
    DB × HttpResp :=
  if email = "" || password = "" then (db, ⟨400, "Required fields"⟩)
  else
    match findUser db email with
    | some _ => (db, ⟨400, "User exists"⟩)
    | none =>
        ({ db with users := db.users ++ [{ email := email, password := bhash password 10, chats := [] }] },
         ⟨201, "Registered"⟩)

/-- A JWT payload as produced/consumed here: an optional `email` claim
plus the `iat`/`exp` claims (seconds). -/
structure Payload where
  email : Option String
  iat : Nat
  exp : Nat
deriving DecidableEq, Repr

/-- Symbolic MAC for `jwt.sign`/`jwt.verify`: a deterministic function of
the secret and the payload; a signature verifies iff it equals this. -/
def jwtSig (secret : String) (p : Payload) : String :=
  secret ++ "|" ++ (match p.email with | some e => "e:" ++ e | none => "-") ++
    "|" ++ toString p.iat ++ "|" ++ toString p.exp

/-- A signed token: payload plus signature. -/
structure SignedTok where
  payload : Payload
  sig : String
deriving DecidableEq, Repr

/-- `POST /login` response: status, message, and the token when present. -/
structure LoginResp where
  status : Nat
  message : String
  token : Option SignedTok
deriving DecidableEq, Repr

/-- `POST /login` (server.ts:94-116).  `bcompare` stands for
`bcrypt.compare`.  A user with a falsy stored password is treated as not
found (`!user || !user.password`); `jwt.sign({email}, secret,
{expiresIn:'1h'})` issues a token whose payload is
`(email, iat = now, exp = now + 3600)`.  The handler performs no store
write, so the state is returned unchanged. -/
def login (bcompare : String → String → Bool) (secret : String) (now : Nat)
    (db : DB) (email password : String) : DB × LoginResp :=
  match findUser db email with
  | none => (db, ⟨404, "User not found", none⟩)
  | some u =>
      if u.password = "" then (db, ⟨404, "User not found", none⟩)
      else if bcompare password u.password then
        let p : Payload := { email := some email, iat := now, exp := now + 3600 }
        (db, ⟨200, "Login successful", some ⟨p, jwtSig secret p⟩⟩)
      else (db, ⟨401, "Invalid password", none⟩)

/-- What the `verifyToken` middleware receives: no token part in the
`Authorization` header, a string that does not parse/verify as a JWT, or
a structurally well-formed token (payload plus signature). -/
inductive TokenInput where
  | missing
  | malformed
  | token (p : Payload) (sig : String)
deriving DecidableEq, Repr

/-- Outcome of `verifyToken`: either `next()` runs with `req.user` set to
the decoded payload, or the middleware responds with an error status. -/
inductive VerifyResult where
  | ok (p : Payload)
  | err (resp : HttpResp)
deriving DecidableEq, Repr

/-- The `verifyToken` middleware (server.ts:51-66): 401 when no token is
presented; otherwise `jwt.verify` throws (caught as 403) on a malformed
token, a bad signature, or an expired token (`jsonwebtoken` expires a
token when the clock reaches `exp`); a falsy `email` claim (absent or
empty) also throws, yielding 403. -/
def verifyToken (secret : String) (now : Nat) (t : TokenInput) : VerifyResult :=
  match t with
  | .missing => .err ⟨401, "No token provided"⟩
  | .malformed => .err ⟨403, "Invalid token"⟩
  | .token p sig =>
      if sig ≠ jwtSig secret p then .err ⟨403, "Invalid token"⟩
      else if p.exp ≤ now then .err ⟨403, "Invalid token"⟩
      else
        match p.email with
        | none => .err ⟨403, "Invalid token"⟩
        | some e => if e = "" then .err ⟨403, "Invalid token"⟩ else .ok p

/-- `GET /chatlist` outcome after the middleware has authenticated
`email` (server.ts:119-142). -/
inductive ChatlistResult where
  | notFound
  | ok (entries : List ChatSummary)
deriving DecidableEq, Repr

/-- The `GET /chatlist` handler body (server.ts:119-142): 404 when the
authenticated email has no user record, else the user's chat list. -/
def chatlist (db : DB) (email : String) : ChatlistResult :=
  match findUser db email with
  | none => ChatlistResult.notFound
  | some u => ChatlistResult.ok (chatListFor db u)

/-- A Socket.IO event emitted by a handler.  `receiveMessage` and
`chatlistUpdated` are room broadcasts (`io.to(room).emit`), delivered to
every connection currently in the room — the emitting client's own
connection included when it is in the room.  `chatCreated` is a
`socket.emit`, delivered to the originating connection only. -/
inductive Emit where
  | receiveMessage (room : Nat) (m : Message)
  | chatlistUpdated (room : String) (entries : List ChatSummary)
  | chatCreated (summary : ChatSummary)
deriving DecidableEq, Repr

/-- A connected socket: its id and the rooms it joined.  `join_chat`
subscribes it to a chat-id room, `register_socket` to an email room. -/
structure Socket where
  sid : Nat
  joinedChats : List Nat
  joinedEmails : List String
deriving DecidableEq, Repr

/-- `join_chat({chatId})` (server.ts:153-155): `socket.join(chatId)`,
a set-insert of the room (joining an already-joined room is a no-op). -/
def joinChat (s : Socket) (cid : Nat) : Socket :=
  if s.joinedChats.contains cid then s
  else { s with joinedChats := s.joinedChats ++ [cid] }

/-- `register_socket({email})` (server.ts:149-151): `socket.join(email)`. -/
def registerSocket (s : Socket) (email : String) : Socket :=
  if s.joinedEmails.contains email then s
  else { s with joinedEmails := s.joinedEmails ++ [email] }

/-- Socket.IO delivery: whether event `e`, emitted while handling a
request from the connection with id `origin`, reaches socket `s`.  Room
broadcasts reach every room member regardless of `origin`; the
`chat_created` acknowledgment reaches exactly the originating
connection. -/
def deliveredTo (e : Emit) (s : Socket) (origin : Nat) : Bool :=
  match e with
  | .receiveMessage room _ => s.joinedChats.contains room
  | .chatlistUpdated room _ => s.joinedEmails.contains room
  | .chatCreated _ => s.sid == origin

/-- The `send_message` handler (server.ts:157-166).  If the chat id does
not resolve, nothing happens (no write, no emit, no error event).
Otherwise the plain `{sender, text}` object is pushed onto the chat's
message array — the mongoose schema default stamps it with the clock at
push time, `tPush` — the chat is saved, and a `receive_message` carrying
`{sender, text, timestamp: new Date()}` is broadcast to the chat-id room;
that second `new Date()` is a fresh clock read after the awaited save,
`tEmit`. -/
def sendMessage (db : DB) (chatId : Nat) (sender text : String)
    (tPush tEmit : Nat) : DB × List Emit :=
  match findChatById db chatId with
  | none => (db, [])
  | some chat =>
      let msg : Message := { sender := sender, text := text, timestamp := tPush }
      let chat2 := { chat with messages := chat.messages ++ [msg] }
      ({ db with chats := updateChat db.chats chatId (fun _ => chat2) },
       [Emit.receiveMessage chatId { sender := sender, text := text, timestamp := tEmit }])

/-- The raw body of a client `send_message` event.  Socket.IO payloads
are untyped JSON, so a client may attach extra fields such as an image
URI; the handler destructures only `{chatId, sender, text}`
(server.ts:157). -/
structure SendPayload where
  chatId : Nat
  sender : String
  text : String
  image : Option String
deriving DecidableEq, Repr

/-- The `send_message` event handler applied to a raw payload: the
destructuring `{chatId, sender, text}` reads exactly those three fields;
any `image` field in the payload is never read. -/
def handleSendMessageEvent (db : DB) (p : SendPayload) (tPush tEmit : Nat) :
    DB × List Emit :=
  match findChatById db p.chatId with
  | none => (db, [])
  | some chat =>
      let msg : Message := { sender := p.sender, text := p.text, timestamp := tPush }
      let chat2 := { chat with messages := chat.messages ++ [msg] }
      ({ db with chats := updateChat db.chats p.chatId (fun _ => chat2) },
       [Emit.receiveMessage p.chatId { sender := p.sender, text := p.text, timestamp := tEmit }])

/-- One iteration of the participant-linking loop in `create_chat`
(server.ts:178-184): look the email up; when a user exists and its
`chats` array does not yet contain the new chat id, push the id and save
that user.  An email with no user record is skipped. -/
def linkUser (db : DB) (cid : Nat) (email : String) : DB :=
  match findUser db email with
  | none => db
  | some u =>
      if u.chats.contains cid then db
      else { db with users := updateUser db.users email (fun v => { v with chats := v.chats ++ [cid] }) }

/-- The store part of `create_chat` (server.ts:168-185), the spec's
`findOrCreateChat`: find a chat matching the participant query
(`$all` + `$size`); when none exists, create one with a fresh id and an
empty message list, save it, and run the linking loop over the
participants in order.  Returns the updated store and the found-or-created
chat document. -/
def createChatCore (db : DB) (participants : List String) : DB × Chat :=
  match findChatByParticipants db participants with
  | some c => (db, c)
  | none =>
      let newChat : Chat := { id := db.nextChatId, participants := participants, messages := [] }
      let db1 : DB := { db with chats := db.chats ++ [newChat], nextChatId := db.nextChatId + 1 }
      (participants.foldl (fun d e => linkUser d newChat.id e) db1, newChat)

/-- The fan-out loop of `create_chat` (server.ts:187-202): for each
participant in order, look the user up in the (post-linking) store; when
a user exists, recompute that user's full chat list and broadcast it to
the participant's email room; an email with no user record emits
nothing. -/
def fanOut (db : DB) (participants : List String) : List Emit :=
  participants.filterMap (fun e =>
    match findUser db e with
    | none => none
    | some u => some (Emit.chatlistUpdated e (chatListFor db u)))

/-- The full `create_chat` handler (server.ts:168-212): find-or-create
and link, fan the recomputed chat lists out to the participants' email
rooms, then emit a single `chat_created` acknowledgment to the
originating connection, carrying `{chatId, participants (unfiltered),
lastMessage}` of the found-or-created chat. -/
def createChat (db : DB) (participants : List String) : DB × List Emit :=
  let r := createChatCore db participants
  (r.1, fanOut r.1 participants ++
    [Emit.chatCreated { chatId := r.2.id, participants := r.2.participants,
                        lastMessage := lastMessageOf r.2 }])

/-- Whether an emitted event is a `chat_created` acknowledgment. -/
def isChatCreatedEmit : Emit → Bool
  | Emit.chatCreated _ => true
  | _ => false

/-! ### Claim theorems -/

/-- C2: when `chatId` resolves to no existing chat, `send_message` is a
silent no-op — the store (every chat and user record) is unchanged and no
event at all is emitted, in particular no `receive_message` broadcast and
no error event. -/
theorem send_message_nonexistent_chat_noop (db : DB) (cid : Nat)
    (sender text tPush tEmit) (h : findChatById db cid = none) :
    sendMessage db cid sender text tPush tEmit = (db, []) := by
  simp [sendMessage, h]

theorem send_message_nonexistent_chat_noop_witness :
    findChatById ⟨[⟨"A", "h", [0]⟩], [⟨0, ["A", "B"], []⟩], 1⟩ 42 = none ∧
    sendMessage ⟨[⟨"A", "h", [0]⟩], [⟨0, ["A", "B"], []⟩], 1⟩ 42 "A" "hi" 3 4 =
      (⟨[⟨"A", "h", [0]⟩], [⟨0, ["A", "B"], []⟩], 1⟩, []) :=
  ⟨by decide,
   send_message_nonexistent_chat_noop ⟨[⟨"A", "h", [0]⟩], [⟨0, ["A", "B"], []⟩], 1⟩
     42 "A" "hi" 3 4 (by decide)⟩

/-- C6: with non-empty credentials, `register` answers 400 (Conflict,
body `User exists`) and leaves the store untouched whenever a user with
that email already exists; otherwise its entire effect is to append one
user record whose stored password is `bcrypt.hash(password, 10)` — the
hash, never the plaintext — with an empty chat list, answering 201. -/
theorem register_conflict_or_hashed_create (bhash : String → Nat → String)
    (db : DB) (email password : String) (he : email ≠ "") (hp : password ≠ "") :
    (∀ u, findUser db email = some u →
        register bhash db email password = (db, ⟨400, "User exists"⟩)) ∧
    (findUser db email = none →
        register bhash db email password =
          ({ db with users := db.users ++ [⟨email, bhash password 10, []⟩] },
           ⟨201, "Registered"⟩)) := by
  constructor
  · intro u hu
    simp [register, he, hp, hu]
  · intro hu
    simp [register, he, hp, hu]

theorem register_conflict_or_hashed_create_witness :
    register (fun p c => "H" ++ toString c ++ "#" ++ p) ⟨[], [], 0⟩ "A" "pw" =
      (⟨[⟨"A", "H10#pw", []⟩], [], 0⟩, ⟨201, "Registered"⟩) :=
  (register_conflict_or_hashed_create (fun p c => "H" ++ toString c ++ "#" ++ p)
      ⟨[], [], 0⟩ "A" "pw" (by decide) (by decide)).2 (by decide)

/-- C7: `login` answers 404 when no user record carries the email (or the
stored password is falsy), 401 when the bcrypt comparison fails, and on a
successful comparison answers 200 with a token signed under the server
secret whose payload is scoped to the email with `iat = now` and
`exp = now + 3600` (a 1-hour expiry); in every case the store is returned
unchanged (the handler is stateless). -/
theorem login_statuses_and_token (bcompare : String → String → Bool)
    (secret : String) (now : Nat) (db : DB) (email password : String) :
    (login bcompare secret now db email password).1 = db ∧
    (findUser db email = none →
        login bcompare secret now db email password =
          (db, ⟨404, "User not found", none⟩)) ∧
    (∀ u, findUser db email = some u → u.password ≠ "" →
        bcompare password u.password = false →
        login bcompare secret now db email password =
          (db, ⟨401, "Invalid password", none⟩)) ∧
    (∀ u, findUser db email = some u → u.password ≠ "" →
        bcompare password u.password = true →
        login bcompare secret now db email password =
          (db, ⟨200, "Login successful",
            some ⟨⟨some email, now, now + 3600⟩,
                  jwtSig secret ⟨some email, now, now + 3600⟩⟩⟩)) := by
  refine ⟨?_, ?_, ?_, ?_⟩
  · cases h : findUser db email with
    | none => simp [login, h]
    | some u =>
        simp only [login, h]
        split
        · rfl
        · split <;> rfl
  · intro h
    simp [login, h]
  · intro u hu hpw hcmp
    simp [login, hu, hpw, hcmp]
  · intro u hu hpw hcmp
    simp [login, hu, hpw, hcmp]

theorem login_statuses_and_token_witness :
    login (fun p h => h == "H#" ++ p) "sec" 100 ⟨[⟨"A", "H#pw", []⟩], [], 0⟩ "A" "pw" =
      (⟨[⟨"A", "H#pw", []⟩], [], 0⟩, ⟨200, "Login successful",
        some ⟨⟨some "A", 100, 100 + 3600⟩, jwtSig "sec" ⟨some "A", 100, 100 + 3600⟩⟩⟩) :=
  (login_statuses_and_token (fun p h => h == "H#" ++ p) "sec" 100
      ⟨[⟨"A", "H#pw", []⟩], [], 0⟩ "A" "pw").2.2.2 ⟨"A", "H#pw", []⟩
      (by decide) (by decide) (by decide)

/-- C8: the middleware rejects a missing token with 401 and every
malformed token, badly signed token, expired token, or token with a
falsy email claim with 403 (both are the spec's Unauthorized bucket for
auth failures), and it accepts every token issued by `login` throughout
the 1-hour validity window, yielding the authenticated email as the
identity in the decoded payload. -/
theorem verify_accepts_issued_rejects_invalid (bcompare : String → String → Bool)
    (secret : String) (now : Nat) :
    verifyToken secret now .missing = .err ⟨401, "No token provided"⟩ ∧
    verifyToken secret now .malformed = .err ⟨403, "Invalid token"⟩ ∧
    (∀ p sig, sig ≠ jwtSig secret p →
        verifyToken secret now (.token p sig) = .err ⟨403, "Invalid token"⟩) ∧
    (∀ p sig, p.exp ≤ now →
        verifyToken secret now (.token p sig) = .err ⟨403, "Invalid token"⟩) ∧
    (∀ p sig, p.email = none ∨ p.email = some "" →
        verifyToken secret now (.token p sig) = .err ⟨403, "Invalid token"⟩) ∧
    (∀ db email password tok t,
        (login bcompare secret now db email password).2.token = some tok →
        email ≠ "" → now ≤ t → t < now + 3600 →
        verifyToken secret t (.token tok.payload tok.sig) =
          .ok ⟨some email, now, now + 3600⟩) := by
  refine ⟨rfl, rfl, ?_, ?_, ?_, ?_⟩
  · intro p sig h
    simp [verifyToken, h]
  · intro p sig h
    simp only [verifyToken]
    split
    · rfl
    · simp [h]
  · intro p sig h
    simp only [verifyToken]
    split
    · rfl
    · split
      · rfl
      · rcases h with h | h <;> simp [h]
  · intro db email password tok t htok hemail hle hlt
    cases hfind : findUser db email with
    | none => simp [login, hfind] at htok
    | some u =>
        by_cases hpw : u.password = ""
        · simp [login, hfind, hpw] at htok
        · by_cases hcmp : bcompare password u.password
          · simp [login, hfind, hpw, hcmp] at htok
            subst htok
            have hne : ¬ (now + 3600 ≤ t) := by omega
            simp [verifyToken, hne, hemail]
          · simp [login, hfind, hpw, hcmp] at htok

theorem verify_accepts_issued_rejects_invalid_witness :
    verifyToken "sec" 101
        (.token ⟨some "A", 100, 100 + 3600⟩ (jwtSig "sec" ⟨some "A", 100, 100 + 3600⟩)) =
      .ok ⟨some "A", 100, 100 + 3600⟩ :=
  (verify_accepts_issued_rejects_invalid (fun p h => h == "H#" ++ p) "sec" 100).2.2.2.2.2
    ⟨[⟨"A", "H#pw", []⟩], [], 0⟩ "A" "pw"
    ⟨⟨some "A", 100, 100 + 3600⟩, jwtSig "sec" ⟨some "A", 100, 100 + 3600⟩⟩ 101
    (by decide) (by decide) (by decide) (by decide)

/-! ### Helper lemmas about the store operations -/

/-- Linking a participant touches only the `users` collection. -/
theorem linkUser_chats (db : DB) (cid : Nat) (e : String) :
    (linkUser db cid e).chats = db.chats := by
  unfold linkUser
  cases findUser db e with
  | none => rfl
  | some u =>
      dsimp only
      split <;> rfl

/-- The whole linking loop touches only the `users` collection. -/
theorem linkFold_chats (ps : List String) (cid : Nat) (db : DB) :
    (ps.foldl (fun d e => linkUser d cid e) db).chats = db.chats := by
  induction ps generalizing db with
  | nil => rfl
  | cons p ps ih => rw [List.foldl_cons, ih, linkUser_chats]

/-- A chat whose stored participant array is exactly the requested
non-empty list satisfies the `$all` + `$size` query for that list. -/
theorem chatMatches_self (i : Nat) (S : List String) (ms : List Message)
    (hne : S ≠ []) : chatMatches S ⟨i, S, ms⟩ = true := by
  simp [chatMatches, hne]

/-- The chat returned by `findOrCreateChat` always has exactly as many
stored participants as the requested list: a found chat by the `$size`
clause of the query, a created chat because it stores the list itself. -/
theorem createChatCore_participants_length (db : DB) (S : List String) :
    ((createChatCore db S).2).participants.length = S.length := by
  unfold createChatCore
  cases h : findChatByParticipants db S with
  | none => simp
  | some c =>
      have hm := List.find?_some h
      unfold chatMatches at hm
      simp only [Bool.and_eq_true, beq_iff_eq] at hm
      simpa using hm.2.2

/-- C1 counterexample: MongoDB's `$all` with an empty array matches no
documents, so the match query of `create_chat` can never find an
existing chat for the empty participant set: calling `findOrCreateChat`
twice with `S = ∅` creates a fresh chat both times — the second call
returns a different chat and grows the store instead of returning the
first chat unchanged, refuting the claim's "for every participant set
S". -/
theorem find_or_create_chat_empty_set_cex :
    (createChatCore ⟨[], [], 0⟩ []).2 = ⟨0, [], []⟩ ∧
    (createChatCore (createChatCore ⟨[], [], 0⟩ []).1 []).2 = ⟨1, [], []⟩ ∧
    (⟨1, [], []⟩ : Chat) ≠ ⟨0, [], []⟩ ∧
    (createChatCore (createChatCore ⟨[], [], 0⟩ []).1 []).1.chats =
      [⟨0, [], []⟩, ⟨1, [], []⟩] := by
  refine ⟨rfl, rfl, by decide, rfl⟩

/-- C1 (amended): `findOrCreateChat` deduplicates on the exact
participant set for every non-empty set.  Calling it a second time with
the same non-empty set `S` returns the very chat the first call
returned, with the store unchanged (the found chat is returned
unmodified and nothing new is created); and calling it with a strict
superset `T` of `S` (`S ⊆ T` with more elements, e.g. `{A,B,C}` over
`{A,B}`) returns a distinct chat, because matching is exact-size and
order-independent.  For the empty set the `$all: []` query matches no
documents, so every call creates a fresh chat. -/
theorem find_or_create_chat_exact_set_dedup (db : DB) (S T : List String)
    (hne : S ≠ []) (_hS : S.Nodup) (_hT : T.Nodup) (_hsub : ∀ a ∈ S, a ∈ T)
    (hlen : S.length < T.length) :
    createChatCore (createChatCore db S).1 S =
      ((createChatCore db S).1, (createChatCore db S).2) ∧
    (createChatCore (createChatCore db S).1 T).2 ≠ (createChatCore db S).2 := by
  have hsecond : createChatCore (createChatCore db S).1 S =
      ((createChatCore db S).1, (createChatCore db S).2) := by
    cases h : findChatByParticipants db S with
    | some c =>
        have h1 : createChatCore db S = (db, c) := by
          unfold createChatCore
          rw [h]
        rw [h1]
        unfold createChatCore
        rw [h]
    | none =>
        have h1 : createChatCore db S =
            (S.foldl (fun d e => linkUser d db.nextChatId e)
              { db with chats := db.chats ++ [⟨db.nextChatId, S, []⟩],
                        nextChatId := db.nextChatId + 1 },
             ⟨db.nextChatId, S, []⟩) := by
          unfold createChatCore
          rw [h]
        rw [h1]
        have hchats : (createChatCore db S).1.chats =
            db.chats ++ [⟨db.nextChatId, S, []⟩] := by
          rw [h1, linkFold_chats]
        have hfind2 : findChatByParticipants
            (S.foldl (fun d e => linkUser d db.nextChatId e)
              { db with chats := db.chats ++ [⟨db.nextChatId, S, []⟩],
                        nextChatId := db.nextChatId + 1 }) S =
            some ⟨db.nextChatId, S, []⟩ := by
          unfold findChatByParticipants
          rw [show (S.foldl (fun d e => linkUser d db.nextChatId e)
              { db with chats := db.chats ++ [⟨db.nextChatId, S, []⟩],
                        nextChatId := db.nextChatId + 1 } : DB).chats =
              db.chats ++ [⟨db.nextChatId, S, []⟩] from linkFold_chats ..]
          rw [List.find?_append]
          unfold findChatByParticipants at h
          rw [h]
          simp [chatMatches_self db.nextChatId S [] hne]
        unfold createChatCore
        rw [hfind2]
  refine ⟨hsecond, ?_⟩
  intro heq
  have h1 : ((createChatCore db S).2).participants.length = S.length :=
    createChatCore_participants_length db S
  have h2 : ((createChatCore (createChatCore db S).1 T).2).participants.length =
      T.length := createChatCore_participants_length _ T
  rw [heq, h1] at h2
  omega

theorem find_or_create_chat_exact_set_dedup_witness :
    createChatCore (createChatCore ⟨[], [], 0⟩ ["A", "B"]).1 ["A", "B"] =
      ((createChatCore ⟨[], [], 0⟩ ["A", "B"]).1,
       (createChatCore ⟨[], [], 0⟩ ["A", "B"]).2) ∧
    (createChatCore (createChatCore ⟨[], [], 0⟩ ["A", "B"]).1 ["A", "B", "C"]).2 ≠
      (createChatCore ⟨[], [], 0⟩ ["A", "B"]).2 :=
  find_or_create_chat_exact_set_dedup ⟨[], [], 0⟩ ["A", "B"] ["A", "B", "C"]
    (by decide) (by decide) (by decide) (by decide) (by decide)

/-- Rewriting the first user with email `x` through a function that keeps
the email field cannot make a previously absent email appear. -/
theorem find?_updateUser_none (us : List User) (x y : String) (f : User → User)
    (hf : ∀ u, (f u).email = u.email)
    (h : us.find? (fun u => u.email == y) = none) :
    (updateUser us x f).find? (fun u => u.email == y) = none := by
  induction us with
  | nil => rfl
  | cons u rest ih =>
      rw [List.find?_eq_none] at h
      have hu : ¬ (u.email == y) = true := h u (by simp)
      have hrest : rest.find? (fun v => v.email == y) = none := by
        rw [List.find?_eq_none]
        intro v hv
        exact h v (by simp [hv])
      unfold updateUser
      split
      · rw [List.find?_eq_none]
        intro v hv
        rcases List.mem_cons.1 hv with rfl | hv
        · simpa [hf u] using hu
        · exact List.find?_eq_none.1 hrest v hv
      · rw [List.find?_eq_none]
        intro v hv
        rcases List.mem_cons.1 hv with rfl | hv
        · exact hu
        · exact List.find?_eq_none.1 (ih hrest) v hv

/-- The linking step never creates a user record: an email absent from
the store stays absent. -/
theorem findUser_linkUser_none (db : DB) (cid : Nat) (x y : String)
    (h : findUser db y = none) : findUser (linkUser db cid x) y = none := by
  unfold linkUser
  cases hf : findUser db x with
  | none => exact h
  | some u =>
      dsimp only
      split
      · exact h
      · exact find?_updateUser_none db.users x y _ (fun v => rfl) h

/-- The whole linking loop never creates a user record. -/
theorem findUser_linkFold_none (ps : List String) (cid : Nat) (db : DB) (y : String)
    (h : findUser db y = none) :
    findUser (ps.foldl (fun d e => linkUser d cid e) db) y = none := by
  induction ps generalizing db with
  | nil => exact h
  | cons p ps ih => exact ih _ (findUser_linkUser_none db cid p y h)

/-- Soundness of the `create_chat` fan-out loop: every `chatlist_updated`
it emits targets the email room of a participant that resolved to a user
record, and carries that user's freshly computed chat list. -/
theorem fanOut_sound (db : DB) (ps : List String) (r : String) (l : List ChatSummary)
    (hmem : Emit.chatlistUpdated r l ∈ fanOut db ps) :
    r ∈ ps ∧ ∃ u, findUser db r = some u ∧ l = chatListFor db u := by
  unfold fanOut at hmem
  rw [List.mem_filterMap] at hmem
  obtain ⟨e, he, heq⟩ := hmem
  cases hf : findUser db e with
  | none =>
      rw [hf] at heq
      simp at heq
  | some u =>
      rw [hf] at heq
      simp only [Option.some.injEq, Emit.chatlistUpdated.injEq] at heq
      obtain ⟨h1, h2⟩ := heq
      subst h1
      subst h2
      exact ⟨he, u, hf, rfl⟩

/-- Completeness of the `create_chat` fan-out loop: every participant
that resolves to a user record is sent its freshly computed chat list. -/
theorem fanOut_complete (db : DB) (ps : List String) (e : String) (u : User)
    (he : e ∈ ps) (hf : findUser db e = some u) :
    Emit.chatlistUpdated e (chatListFor db u) ∈ fanOut db ps := by
  unfold fanOut
  rw [List.mem_filterMap]
  exact ⟨e, he, by rw [hf]⟩

/-- The fan-out loop emits only `chatlist_updated` events, never a
`chat_created` acknowledgment. -/
theorem fanOut_no_ack (db : DB) (ps : List String) (x : Emit) (hx : x ∈ fanOut db ps) :
    isChatCreatedEmit x = false := by
  unfold fanOut at hx
  rw [List.mem_filterMap] at hx
  obtain ⟨e, he, heq⟩ := hx
  cases hf : findUser db e with
  | none =>
      rw [hf] at heq
      simp at heq
  | some u =>
      rw [hf] at heq
      simp only [Option.some.injEq] at heq
      subst heq
      rfl

/-- Unfolding of the `create_chat` handler into its store step, its
fan-out emissions, and its final acknowledgment. -/
theorem createChat_eq (db : DB) (ps : List String) :
    createChat db ps =
      ((createChatCore db ps).1,
       fanOut (createChatCore db ps).1 ps ++
         [Emit.chatCreated ⟨(createChatCore db ps).2.id,
            (createChatCore db ps).2.participants,
            lastMessageOf (createChatCore db ps).2⟩]) := rfl

/-- C10: a `create_chat` naming a participant email with no user record
still creates the chat with that email among its stored participants, and
the `chat_created` acknowledgment still lists it; but the email is
silently skipped otherwise — afterwards there is still no user record for
it (so none was linked to the chat), and no `chatlist_updated` event is
emitted to its broadcast group. -/
theorem create_chat_unregistered_participant_skipped (db : DB) (ps : List String)
    (e : String) (_hmem : e ∈ ps) (hnou : findUser db e = none)
    (hnew : findChatByParticipants db ps = none) :
    (createChat db ps).1.chats = db.chats ++ [⟨db.nextChatId, ps, []⟩] ∧
    Emit.chatCreated ⟨db.nextChatId, ps, LastMsg.placeholder⟩ ∈ (createChat db ps).2 ∧
    findUser (createChat db ps).1 e = none ∧
    ∀ l, Emit.chatlistUpdated e l ∉ (createChat db ps).2 := by
  have hcore : createChatCore db ps =
      (ps.foldl (fun d x => linkUser d db.nextChatId x)
        { db with chats := db.chats ++ [⟨db.nextChatId, ps, []⟩],
                  nextChatId := db.nextChatId + 1 },
       ⟨db.nextChatId, ps, []⟩) := by
    unfold createChatCore
    rw [hnew]
  have h3 : findUser (createChatCore db ps).1 e = none := by
    rw [hcore]
    exact findUser_linkFold_none _ _ _ _ hnou
  refine ⟨?_, ?_, h3, ?_⟩
  · rw [createChat_eq]
    dsimp only
    rw [hcore]
    exact linkFold_chats ..
  · rw [createChat_eq]
    dsimp only
    rw [hcore]
    exact List.mem_append_right _ (by simp [lastMessageOf])
  · intro l hl
    rw [createChat_eq] at hl
    dsimp only at hl
    rcases List.mem_append.1 hl with hfan | hack
    · obtain ⟨-, u, hu, -⟩ := fanOut_sound _ _ _ _ hfan
      rw [h3] at hu
      exact Option.noConfusion hu
    · simp at hack

theorem create_chat_unregistered_participant_skipped_witness :
    (createChat ⟨[⟨"A", "h", []⟩], [], 0⟩ ["A", "B"]).1.chats =
      [⟨0, ["A", "B"], []⟩] ∧
    Emit.chatCreated ⟨0, ["A", "B"], LastMsg.placeholder⟩ ∈
      (createChat ⟨[⟨"A", "h", []⟩], [], 0⟩ ["A", "B"]).2 ∧
    findUser (createChat ⟨[⟨"A", "h", []⟩], [], 0⟩ ["A", "B"]).1 "B" = none ∧
    Emit.chatlistUpdated "B" [] ∉ (createChat ⟨[⟨"A", "h", []⟩], [], 0⟩ ["A", "B"]).2 := by
  have h := create_chat_unregistered_participant_skipped ⟨[⟨"A", "h", []⟩], [], 0⟩
    ["A", "B"] "B" (by decide) (by decide) (by decide)
  exact ⟨h.1, h.2.1, h.2.2.1, h.2.2.2 []⟩

/-- C5 counterexample: with only `A` registered, `create_chat({A,B})`
emits a `chatlist_updated` to `A`'s email room and the single
`chat_created` acknowledgment — and nothing at all to `B`'s email room,
refuting "pushes ... to the email broadcast group of every
participant". -/
theorem create_chat_push_misses_unregistered_cex :
    (createChat ⟨[⟨"A", "h", []⟩], [], 0⟩ ["A", "B"]).2 =
      [Emit.chatlistUpdated "A" [⟨0, ["B"], LastMsg.placeholder⟩],
       Emit.chatCreated ⟨0, ["A", "B"], LastMsg.placeholder⟩] ∧
    ((createChat ⟨[⟨"A", "h", []⟩], [], 0⟩ ["A", "B"]).2.all
      (fun x => match x with
        | Emit.chatlistUpdated r _ => r != "B"
        | _ => true)) = true := by
  constructor
  · rfl
  · rfl

/-- C5 (amended): after `findOrCreateChat`, the hub pushes a freshly
recomputed full chat-list summary (computed against the post-creation
store) to the email broadcast group of every participant that resolves
to a registered user — participants with no user record get no push —
and every `chatlist_updated` it emits is such a push; separately it
emits exactly one `chat_created` acknowledgment, carrying the
created-or-found chat's summary, delivered to the originating connection
only (no broadcast group). -/
theorem create_chat_fanout_registered_and_single_ack (db : DB) (ps : List String) :
    (∀ e ∈ ps, ∀ u, findUser (createChat db ps).1 e = some u →
        Emit.chatlistUpdated e (chatListFor (createChat db ps).1 u) ∈
          (createChat db ps).2) ∧
    (∀ r l, Emit.chatlistUpdated r l ∈ (createChat db ps).2 →
        r ∈ ps ∧ ∃ u, findUser (createChat db ps).1 r = some u ∧
          l = chatListFor (createChat db ps).1 u) ∧
    ((createChat db ps).2.filter isChatCreatedEmit) =
      [Emit.chatCreated ⟨(createChatCore db ps).2.id,
        (createChatCore db ps).2.participants,
        lastMessageOf (createChatCore db ps).2⟩] ∧
    (∀ (s : Socket) (origin : Nat),
        deliveredTo (Emit.chatCreated ⟨(createChatCore db ps).2.id,
          (createChatCore db ps).2.participants,
          lastMessageOf (createChatCore db ps).2⟩) s origin = (s.sid == origin)) := by
  refine ⟨?_, ?_, ?_, fun s origin => rfl⟩
  · intro e he u hu
    rw [createChat_eq]
    exact List.mem_append_left _ (fanOut_complete _ _ _ _ he hu)
  · intro r l hl
    rw [createChat_eq] at hl
    rcases List.mem_append.1 hl with hfan | hack
    · exact fanOut_sound _ _ _ _ hfan
    · simp at hack
  · rw [createChat_eq]
    dsimp only
    rw [List.filter_append]
    have hnil : (fanOut (createChatCore db ps).1 ps).filter isChatCreatedEmit = [] := by
      rw [List.filter_eq_nil_iff]
      intro a ha
      rw [fanOut_no_ack _ _ _ ha]
      exact Bool.false_ne_true
    rw [hnil]
    rfl

theorem create_chat_fanout_registered_and_single_ack_witness :
    Emit.chatlistUpdated "A"
        (chatListFor (createChat ⟨[⟨"A", "h", []⟩], [], 0⟩ ["A", "B"]).1
          ⟨"A", "h", [0]⟩) ∈
      (createChat ⟨[⟨"A", "h", []⟩], [], 0⟩ ["A", "B"]).2 :=
  (create_chat_fanout_registered_and_single_ack ⟨[⟨"A", "h", []⟩], [], 0⟩
      ["A", "B"]).1 "A" (by decide) ⟨"A", "h", [0]⟩ (by decide)

/-- C3 counterexample: on a chat that exists, with the message pushed at
clock 5 and the broadcast built at clock 7 (the save sits between the two
clock reads), the persisted message carries timestamp 5 while the echoed
`receive_message` carries timestamp 7 — the echoed message does not equal
the persisted one, refuting "the echoed message equals the persisted one
(including its server-assigned timestamp)". -/
theorem send_message_echo_differs_from_persisted_cex :
    sendMessage ⟨[], [⟨0, ["A", "B"], []⟩], 1⟩ 0 "A" "hi" 5 7 =
      (⟨[], [⟨0, ["A", "B"], [⟨"A", "hi", 5⟩]⟩], 1⟩,
       [Emit.receiveMessage 0 ⟨"A", "hi", 7⟩]) ∧
    (⟨"A", "hi", 7⟩ : Message) ≠ ⟨"A", "hi", 5⟩ := by
  constructor
  · rfl
  · decide

/-- C3 (amended): `send_message` on an existing chat appends a message
stamped with the clock at push time and broadcasts to the chat's room a
message with the same sender and text but stamped with a second clock
read taken at emit time, after the awaited save — so the echo equals the
persisted message exactly when the two clock reads coincide; the
appended message becomes the chat's last message, and the broadcast is
delivered to every connection that joined the chat's room, whichever
connection (the sender's own included) it is. -/
theorem send_message_appends_and_echoes (db : DB) (cid : Nat)
    (sender text : String) (tPush tEmit : Nat) (c : Chat)
    (h : findChatById db cid = some c) :
    sendMessage db cid sender text tPush tEmit =
      ({ db with chats := (updateChat db.chats cid
            (fun _ => { c with messages := c.messages ++ [⟨sender, text, tPush⟩] })) },
       [Emit.receiveMessage cid ⟨sender, text, tEmit⟩]) ∧
    lastMessageOf { c with messages := c.messages ++ [⟨sender, text, tPush⟩] } =
      LastMsg.real ⟨sender, text, tPush⟩ ∧
    ((⟨sender, text, tEmit⟩ : Message) = ⟨sender, text, tPush⟩ ↔ tEmit = tPush) ∧
    (∀ (s : Socket) (origin : Nat), s.joinedChats.contains cid = true →
        deliveredTo (Emit.receiveMessage cid ⟨sender, text, tEmit⟩) s origin = true) := by
  refine ⟨?_, ?_, ?_, ?_⟩
  · simp [sendMessage, h]
  · simp [lastMessageOf, List.getLast?_concat]
  · constructor
    · intro hm
      exact congrArg Message.timestamp hm
    · intro ht
      rw [ht]
  · intro s origin hs
    simpa [deliveredTo] using hs

theorem send_message_appends_and_echoes_witness :
    sendMessage ⟨[], [⟨0, ["A", "B"], []⟩], 1⟩ 0 "A" "hi" 5 5 =
      (⟨[], [⟨0, ["A", "B"], [⟨"A", "hi", 5⟩]⟩], 1⟩,
       [Emit.receiveMessage 0 ⟨"A", "hi", 5⟩]) :=
  (send_message_appends_and_echoes ⟨[], [⟨0, ["A", "B"], []⟩], 1⟩ 0 "A" "hi" 5 5
      ⟨0, ["A", "B"], []⟩ (by decide)).1

/-- C9 counterexample: the message schema has no image field and the
`send_message` handler destructures only `{chatId, sender, text}`, so a
payload carrying an image URI produces exactly the same store and
broadcast as one carrying a different image or none at all, and the
persisted message consists of sender, text and timestamp only — the
supplied image is not included, refuting "the persisted Message includes
it". -/
theorem send_message_image_not_persisted_cex :
    handleSendMessageEvent ⟨[], [⟨0, ["A", "B"], []⟩], 1⟩
        ⟨0, "A", "hi", some "uri-one.png"⟩ 5 7 =
      handleSendMessageEvent ⟨[], [⟨0, ["A", "B"], []⟩], 1⟩
        ⟨0, "A", "hi", none⟩ 5 7 ∧
    handleSendMessageEvent ⟨[], [⟨0, ["A", "B"], []⟩], 1⟩
        ⟨0, "A", "hi", some "uri-one.png"⟩ 5 7 =
      (⟨[], [⟨0, ["A", "B"], [⟨"A", "hi", 5⟩]⟩], 1⟩,
       [Emit.receiveMessage 0 ⟨"A", "hi", 7⟩]) := by
  constructor
  · rfl
  · rfl

/-- C9 (amended): a persisted Message carries sender, text and the
persistence-time timestamp only — the schema has no image field.  The
`send_message` handler reads just `{chatId, sender, text}` from its
payload, so supplying an image URI changes neither the store nor the
broadcast, and the appended message never includes it. -/
theorem send_message_ignores_image (db : DB) (p : SendPayload) (tPush tEmit : Nat) :
    handleSendMessageEvent db p tPush tEmit =
      handleSendMessageEvent db ⟨p.chatId, p.sender, p.text, none⟩ tPush tEmit ∧
    (∀ c, findChatById db p.chatId = some c →
        handleSendMessageEvent db p tPush tEmit =
          ({ db with chats := (updateChat db.chats p.chatId
                (fun _ => { c with messages := c.messages ++ [⟨p.sender, p.text, tPush⟩] })) },
           [Emit.receiveMessage p.chatId ⟨p.sender, p.text, tEmit⟩])) := by
  refine ⟨rfl, ?_⟩
  intro c hc
  simp [handleSendMessageEvent, hc]

theorem send_message_ignores_image_witness :
    handleSendMessageEvent ⟨[], [⟨0, ["A", "B"], []⟩], 1⟩
        ⟨0, "A", "hi", some "pic.png"⟩ 3 4 =
      (⟨[], [⟨0, ["A", "B"], [⟨"A", "hi", 3⟩]⟩], 1⟩,
       [Emit.receiveMessage 0 ⟨"A", "hi", 4⟩]) :=
  (send_message_ignores_image ⟨[], [⟨0, ["A", "B"], []⟩], 1⟩
      ⟨0, "A", "hi", some "pic.png"⟩ 3 4).2 ⟨0, ["A", "B"], []⟩ (by decide)

/-- A user found under an email carries that email. -/
theorem findUser_email (db : DB) (email : String) (u : User)
    (h : findUser db email = some u) : u.email = email := by
  have := List.find?_some h
  simpa using this

/-- A chat whose message array ends in `m` has `m` as its summary's last
message. -/
theorem lastMessageOf_append (c : Chat) (ms : List Message) (m : Message)
    (h : c.messages = ms ++ [m]) : lastMessageOf c = LastMsg.real m := by
  unfold lastMessageOf
  rw [h, List.getLast?_concat]

/-- C4 counterexample: register `A`, create the chat `{A,B}` while `B`
is unregistered, then register `B`.  The resulting store is reachable,
`B` is a participant of the stored chat, yet `GET /chatlist` for `B`
returns the empty list — the chat `B` participates in yields no summary,
because the handler lists `user.chats` (the linked ids) rather than the
chats whose participant array contains the user. -/
theorem chatlist_omits_unlinked_participant_cex :
    (register (fun p c => p ++ toString c)
        ((createChat ((register (fun p c => p ++ toString c) ⟨[], [], 0⟩ "A" "pw").1)
          ["A", "B"]).1) "B" "pw").1 =
      ⟨[⟨"A", "pw10", [0]⟩, ⟨"B", "pw10", []⟩], [⟨0, ["A", "B"], []⟩], 1⟩ ∧
    "B" ∈ (Chat.mk 0 ["A", "B"] []).participants ∧
    chatlist ⟨[⟨"A", "pw10", [0]⟩, ⟨"B", "pw10", []⟩], [⟨0, ["A", "B"], []⟩], 1⟩ "B" =
      ChatlistResult.ok [] := by
  refine ⟨rfl, by decide, rfl⟩

/-- C4 (amended): `GET /chatlist` fails with NotFound when the
authenticated email has no user record; otherwise it returns exactly one
summary for every stored chat whose id is in the user's `chats` links —
each summary showing the chat's participants minus the requesting user
and the most recently appended message (or the empty placeholder for a
chat with no messages).  Chats whose participant array contains the user
but whose id was never linked into `user.chats` (e.g. created before the
user registered) yield no summary. -/
theorem chatlist_lists_linked_chats (db : DB) (email : String) :
    (findUser db email = none → chatlist db email = ChatlistResult.notFound) ∧
    (∀ u, findUser db email = some u →
      chatlist db email = ChatlistResult.ok (chatListFor db u) ∧
      (∀ c ∈ db.chats, u.chats.contains c.id = true →
        (⟨c.id, c.participants.filter (fun p => p != email), lastMessageOf c⟩ : ChatSummary)
          ∈ chatListFor db u) ∧
      (∀ s ∈ chatListFor db u, ∃ c, c ∈ db.chats ∧ u.chats.contains c.id = true ∧
        s = ⟨c.id, c.participants.filter (fun p => p != email), lastMessageOf c⟩) ∧
      (∀ c ∈ db.chats, u.chats.contains c.id = true →
        ∀ ms m, c.messages = ms ++ [m] →
          (⟨c.id, c.participants.filter (fun p => p != email), LastMsg.real m⟩ : ChatSummary)
            ∈ chatListFor db u)) := by
  constructor
  · intro h
    simp [chatlist, h]
  · intro u hu
    have he : u.email = email := findUser_email db email u hu
    have hcomp : ∀ c ∈ db.chats, u.chats.contains c.id = true →
        (⟨c.id, c.participants.filter (fun p => p != email), lastMessageOf c⟩ : ChatSummary)
          ∈ chatListFor db u := by
      intro c hc hcid
      unfold chatListFor
      rw [he]
      exact List.mem_map_of_mem _ (List.mem_filter.2 ⟨hc, hcid⟩)
    refine ⟨by simp [chatlist, hu], hcomp, ?_, ?_⟩
    · intro s hs
      unfold chatListFor at hs
      rw [he] at hs
      obtain ⟨c, hc, rfl⟩ := List.mem_map.1 hs
      have hmem := List.mem_filter.1 hc
      exact ⟨c, hmem.1, hmem.2, rfl⟩
    · intro c hc hcid ms m hm
      have := hcomp c hc hcid
      rwa [lastMessageOf_append c ms m hm] at this

theorem chatlist_lists_linked_chats_witness :
    (⟨0, ["B"], LastMsg.real ⟨"B", "yo", 4⟩⟩ : ChatSummary) ∈
      chatListFor ⟨[⟨"A", "h", [0]⟩], [⟨0, ["A", "B"], [⟨"B", "yo", 4⟩]⟩], 1⟩
        ⟨"A", "h", [0]⟩ := by
  have h := (chatlist_lists_linked_chats
      ⟨[⟨"A", "h", [0]⟩], [⟨0, ["A", "B"], [⟨"B", "yo", 4⟩]⟩], 1⟩ "A").2
      ⟨"A", "h", [0]⟩ (by decide)
  exact h.2.1 ⟨0, ["A", "B"], [⟨"B", "yo", 4⟩]⟩ (by decide) (by decide)

end ChatServer
